import Mathlib

/-!
# SCU firmware

Shallow embedding of the parts of the firmware whose properties are settled below:

* the tachometer commutation drive of applicative/tch.c (`TCH_Init`, `TCH_Task` and the
  constant speed-to-delay table `tch_step_delay_us`);
* the scale of the gauge needle controller declared in applicative/mano.h;
* the seven-segment display buffer of simulator/outputs/kvb.c;
* the register writes of peripherals/analog/dac.c, peripherals/dac.c and peripherals/adc.c.

The globals and peripheral registers a function touches are gathered in a record that the
function takes and returns.  A read or a store outside the bounds of an array has no defined
behaviour in C and makes the result `none`.
-/

namespace SCU

set_option maxRecDepth 8000

/-! ## Data model -/

/-- Speed under which the Tachro is off, `#define TCH_SPEED_MIN_KMH 5`. -/
def TCH_SPEED_MIN_KMH : Nat := 5

/-- Internal state machine, `typedef enum { ... } TCH_State`. -/
inductive TCH_State where
  | TCH_STATE_OFF
  | TCH_STATE_STEP1
  | TCH_STATE_STEP2
  | TCH_STATE_STEP3
  | TCH_STATE_STEP4
  | TCH_STATE_STEP5
  | TCH_STATE_STEP6
  deriving DecidableEq, Repr

/-- The initialiser of `static const unsigned int tch_step_delay_us[TCH_SPEED_MAX_KMH+1]`:
`tch_step_delay_us[v]` is the delay between two steps, in microseconds, required to display
`v` km/h.  The header that defines `TCH_SPEED_MAX_KMH` is not part of the sources at hand; the
initialiser lists 161 values (speeds 0 to 160), which are the entries of the array. -/
def tch_step_delay_us : List Nat :=
  [0, 0, 0, 0, 0, 314278, 269123, 235314, 209051, 188062, 170904,
   156614, 144530, 134177, 125208, 117363, 110443, 104293, 98793, 93843, 89366,
   85296, 81581, 78177, 75044, 72154, 69477, 66993, 64679, 62520, 60501,
   58608, 56830, 55156, 53579, 52089, 50679, 49344, 48078, 46875, 45730,
   44640, 43601, 42609, 41662, 40755, 39887, 39056, 38258, 37492, 36757,
   36049, 35368, 34713, 34081, 33472, 32885, 32317, 31769, 31239, 30727,
   30231, 29751, 29286, 28835, 28398, 27974, 27562, 27162, 26774, 26397,
   26030, 25673, 25326, 24988, 24659, 24339, 24027, 23722, 23426, 23136,
   22854, 22579, 22310, 22047, 21791, 21540, 21295, 21056, 20822, 20593,
   20369, 20150, 19935, 19725, 19520, 19318, 19121, 18928, 18739, 18553,
   18371, 18193, 18018, 17846, 17678, 17512, 17350, 17191, 17035, 16881,
   16730, 16582, 16437, 16294, 16153, 16015, 15879, 15746, 15614, 15485,
   15358, 15234, 15111, 14990, 14871, 14754, 14638, 14525, 14413, 14303,
   14195, 14088, 13983, 13879, 13777, 13676, 13577, 13480, 13383, 13288,
   13195, 13102, 13011, 12922, 12833, 12746, 12660, 12575, 12491, 12408,
   12326, 12246, 12166, 12088, 12010, 11934, 11858, 11784, 11710, 11637]

/-- One digital line: whether it has been configured as an output, and the level last
written to it. -/
structure GPIO_Pin where
  output_mode : Bool
  level : Nat
  deriving DecidableEq, Repr

/-- The TIM5 peripheral as the drive sees it: counter enabled or not, the delay loaded by
`TIM5_SetDelayUs`, and the update-interrupt (elapsed) flag. -/
structure TIM5_Regs where
  running : Bool
  delay_us : Nat
  uif : Bool
  deriving DecidableEq, Repr

/-- The names of the six lines of the commutation drive (`mapping.h`). -/
inductive TCH_Gpio where
  | GPIO_TCH_INH_A
  | GPIO_TCH_INH_B
  | GPIO_TCH_INH_C
  | GPIO_TCH_PWM_A
  | GPIO_TCH_PWM_B
  | GPIO_TCH_PWM_C
  deriving DecidableEq, Repr

/-- Everything `tch.c` reads or writes: its static state, the shared speed
`lsmcu_ctx.lsmcu_speed_kmh`, the six lines and the timer. -/
structure TCH_Context where
  tch_state : TCH_State
  lsmcu_speed_kmh : Nat
  GPIO_TCH_INH_A : GPIO_Pin
  GPIO_TCH_INH_B : GPIO_Pin
  GPIO_TCH_INH_C : GPIO_Pin
  GPIO_TCH_PWM_A : GPIO_Pin
  GPIO_TCH_PWM_B : GPIO_Pin
  GPIO_TCH_PWM_C : GPIO_Pin
  tim5 : TIM5_Regs
  deriving DecidableEq, Repr

/-! ## Driver calls used by `tch.c` -/

/-- Modelled from the spec: `GPIO_Configure(&gpio, GPIO_MODE_OUTPUT, ...)` of gpio.c, whose body
is not among the sources; "configures six digital outputs as outputs".  The line becomes an
output, its level is kept. -/
def GPIO_Configure (g : TCH_Gpio) (c : TCH_Context) : TCH_Context :=
  match g with
  | .GPIO_TCH_INH_A => { c with GPIO_TCH_INH_A := { c.GPIO_TCH_INH_A with output_mode := true } }
  | .GPIO_TCH_INH_B => { c with GPIO_TCH_INH_B := { c.GPIO_TCH_INH_B with output_mode := true } }
  | .GPIO_TCH_INH_C => { c with GPIO_TCH_INH_C := { c.GPIO_TCH_INH_C with output_mode := true } }
  | .GPIO_TCH_PWM_A => { c with GPIO_TCH_PWM_A := { c.GPIO_TCH_PWM_A with output_mode := true } }
  | .GPIO_TCH_PWM_B => { c with GPIO_TCH_PWM_B := { c.GPIO_TCH_PWM_B with output_mode := true } }
  | .GPIO_TCH_PWM_C => { c with GPIO_TCH_PWM_C := { c.GPIO_TCH_PWM_C with output_mode := true } }

/-- Modelled from the spec: `GPIO_Write(&gpio, state)` of gpio.c, whose body is not among the
sources; "digital output lines ... asserted/de-asserted according to the active state ... pure
level signaling".  The line takes the level written, the other lines are untouched. -/
def GPIO_Write (g : TCH_Gpio) (state : Nat) (c : TCH_Context) : TCH_Context :=
  match g with
  | .GPIO_TCH_INH_A => { c with GPIO_TCH_INH_A := { c.GPIO_TCH_INH_A with level := state } }
  | .GPIO_TCH_INH_B => { c with GPIO_TCH_INH_B := { c.GPIO_TCH_INH_B with level := state } }
  | .GPIO_TCH_INH_C => { c with GPIO_TCH_INH_C := { c.GPIO_TCH_INH_C with level := state } }
  | .GPIO_TCH_PWM_A => { c with GPIO_TCH_PWM_A := { c.GPIO_TCH_PWM_A with level := state } }
  | .GPIO_TCH_PWM_B => { c with GPIO_TCH_PWM_B := { c.GPIO_TCH_PWM_B with level := state } }
  | .GPIO_TCH_PWM_C => { c with GPIO_TCH_PWM_C := { c.GPIO_TCH_PWM_C with level := state } }

/-- Modelled from the spec: `TIM5_Start()` of tim.c, whose body is not among the sources;
"start the shared timer". -/
def TIM5_Start (c : TCH_Context) : TCH_Context :=
  { c with tim5 := { c.tim5 with running := true } }

/-- Modelled from the spec: `TIM5_Stop()` of tim.c, whose body is not among the sources;
"stop the timer". -/
def TIM5_Stop (c : TCH_Context) : TCH_Context :=
  { c with tim5 := { c.tim5 with running := false } }

/-- Modelled from the spec: `TIM5_SetDelayUs(delay_us)` of tim.c, whose body is not among the
sources; "load the delay". -/
def TIM5_SetDelayUs (delay_us : Nat) (c : TCH_Context) : TCH_Context :=
  { c with tim5 := { c.tim5 with delay_us := delay_us } }

/-- Modelled from the spec: `TIM5_ClearUifFlag()` of tim.c, whose body is not among the sources;
"clear its elapsed flag". -/
def TIM5_ClearUifFlag (c : TCH_Context) : TCH_Context :=
  { c with tim5 := { c.tim5 with uif := false } }

/-- Modelled from the spec: `TIM5_GetUifFlag()` of tim.c, whose body is not among the sources;
the value of "the shared timer's elapsed flag", 1 when set and 0 otherwise. -/
def TIM5_GetUifFlag (c : TCH_Context) : Nat :=
  if c.tim5.uif then 1 else 0

/-! ## `tch.c` -/

/-- Translation of `void TCH_Init(void)`. -/
def TCH_Init (c : TCH_Context) : TCH_Context :=
  -- Init INH outputs.
  let c := GPIO_Configure .GPIO_TCH_INH_A c
  let c := GPIO_Configure .GPIO_TCH_INH_B c
  let c := GPIO_Configure .GPIO_TCH_INH_C c
  -- Init PWM outputs.
  let c := GPIO_Configure .GPIO_TCH_PWM_A c
  let c := GPIO_Configure .GPIO_TCH_PWM_B c
  let c := GPIO_Configure .GPIO_TCH_PWM_C c
  -- Init context.
  let c := { c with tch_state := .TCH_STATE_OFF }
  -- Init global context.
  { c with lsmcu_speed_kmh := 0 }

/-- Translation of `void TCH_Task(void)`.  The `default:` branch of the C switch (unknown
state, no effect) has no counterpart: `tch_state` only ever holds one of the seven
enumerators.  A table read outside the table makes the result `none`. -/
def TCH_Task (c : TCH_Context) : Option TCH_Context :=
  match c.tch_state with
  | .TCH_STATE_OFF =>
    -- All outputs off.
    let c := GPIO_Write .GPIO_TCH_INH_A 0 c
    let c := GPIO_Write .GPIO_TCH_INH_B 0 c
    let c := GPIO_Write .GPIO_TCH_INH_C 0 c
    let c := GPIO_Write .GPIO_TCH_PWM_A 0 c
    let c := GPIO_Write .GPIO_TCH_PWM_B 0 c
    let c := GPIO_Write .GPIO_TCH_PWM_C 0 c
    -- State evolution.
    if c.lsmcu_speed_kmh ≥ TCH_SPEED_MIN_KMH then do
      -- Start timer and go to first step.
      let c := TIM5_Start c
      let delay ← tch_step_delay_us[c.lsmcu_speed_kmh]?
      let c := TIM5_SetDelayUs delay c
      let c := TIM5_ClearUifFlag c
      some { c with tch_state := .TCH_STATE_STEP1 }
    else
      some c
  | .TCH_STATE_STEP1 =>
    -- Toggle required outputs.
    let c := GPIO_Write .GPIO_TCH_INH_A 1 c
    let c := GPIO_Write .GPIO_TCH_INH_B 1 c
    let c := GPIO_Write .GPIO_TCH_INH_C 0 c
    let c := GPIO_Write .GPIO_TCH_PWM_A 1 c
    let c := GPIO_Write .GPIO_TCH_PWM_C 0 c
    -- State evolution.
    if c.lsmcu_speed_kmh < TCH_SPEED_MIN_KMH then
      -- Stop timer and switch Tachro off.
      let c := TIM5_Stop c
      some { c with tch_state := .TCH_STATE_OFF }
    else
      -- Check delay.
      if TIM5_GetUifFlag c ≠ 0 then do
        -- Clear flag, update delay and go to next step.
        let delay ← tch_step_delay_us[c.lsmcu_speed_kmh]?
        let c := TIM5_SetDelayUs delay c
        let c := TIM5_ClearUifFlag c
        some { c with tch_state := .TCH_STATE_STEP2 }
      else
        some c
  | .TCH_STATE_STEP2 =>
    -- Toggle required outputs.
    let c := GPIO_Write .GPIO_TCH_INH_B 0 c
    let c := GPIO_Write .GPIO_TCH_INH_C 1 c
    -- State evolution.
    if c.lsmcu_speed_kmh < TCH_SPEED_MIN_KMH then
      -- Stop timer and switch Tachro off.
      let c := TIM5_Stop c
      some { c with tch_state := .TCH_STATE_OFF }
    else
      -- Check delay.
      if TIM5_GetUifFlag c ≠ 0 then do
        -- Clear flag, update delay and go to next step.
        let delay ← tch_step_delay_us[c.lsmcu_speed_kmh]?
        let c := TIM5_SetDelayUs delay c
        let c := TIM5_ClearUifFlag c
        some { c with tch_state := .TCH_STATE_STEP3 }
      else
        some c
  | .TCH_STATE_STEP3 =>
    -- Toggle required outputs.
    let c := GPIO_Write .GPIO_TCH_INH_A 0 c
    let c := GPIO_Write .GPIO_TCH_INH_B 1 c
    let c := GPIO_Write .GPIO_TCH_PWM_A 0 c
    let c := GPIO_Write .GPIO_TCH_PWM_B 1 c
    -- State evolution.
    if c.lsmcu_speed_kmh < TCH_SPEED_MIN_KMH then
      -- Stop timer and switch Tachro off.
      let c := TIM5_Stop c
      some { c with tch_state := .TCH_STATE_OFF }
    else
      -- Check delay.
      if TIM5_GetUifFlag c ≠ 0 then do
        -- Clear flag, update delay and go to next step.
        let delay ← tch_step_delay_us[c.lsmcu_speed_kmh]?
        let c := TIM5_SetDelayUs delay c
        let c := TIM5_ClearUifFlag c
        some { c with tch_state := .TCH_STATE_STEP4 }
      else
        some c
  | .TCH_STATE_STEP4 =>
    -- Toggle required outputs.
    let c := GPIO_Write .GPIO_TCH_INH_A 1 c
    let c := GPIO_Write .GPIO_TCH_INH_C 0 c
    -- State evolution.
    if c.lsmcu_speed_kmh < TCH_SPEED_MIN_KMH then
      -- Stop timer and switch Tachro off.
      let c := TIM5_Stop c
      some { c with tch_state := .TCH_STATE_OFF }
    else
      -- Check delay.
      if TIM5_GetUifFlag c ≠ 0 then do
        -- Clear flag, update delay and go to next step.
        let delay ← tch_step_delay_us[c.lsmcu_speed_kmh]?
        let c := TIM5_SetDelayUs delay c
        let c := TIM5_ClearUifFlag c
        some { c with tch_state := .TCH_STATE_STEP5 }
      else
        some c
  | .TCH_STATE_STEP5 =>
    -- Toggle required outputs.
    let c := GPIO_Write .GPIO_TCH_INH_B 0 c
    let c := GPIO_Write .GPIO_TCH_INH_C 1 c
    let c := GPIO_Write .GPIO_TCH_PWM_B 0 c
    let c := GPIO_Write .GPIO_TCH_PWM_C 1 c
    -- State evolution.
    if c.lsmcu_speed_kmh < TCH_SPEED_MIN_KMH then
      -- Stop timer and switch Tachro off.
      let c := TIM5_Stop c
      some { c with tch_state := .TCH_STATE_OFF }
    else
      -- Check delay.
      if TIM5_GetUifFlag c ≠ 0 then do
        -- Clear flag, update delay and go to next step.
        let delay ← tch_step_delay_us[c.lsmcu_speed_kmh]?
        let c := TIM5_SetDelayUs delay c
        let c := TIM5_ClearUifFlag c
        some { c with tch_state := .TCH_STATE_STEP6 }
      else
        some c
  | .TCH_STATE_STEP6 =>
    -- Toggle required outputs.
    let c := GPIO_Write .GPIO_TCH_INH_A 0 c
    let c := GPIO_Write .GPIO_TCH_INH_B 1 c
    -- State evolution.
    if c.lsmcu_speed_kmh < TCH_SPEED_MIN_KMH then
      -- Stop timer and switch Tachro off.
      let c := TIM5_Stop c
      some { c with tch_state := .TCH_STATE_OFF }
    else
      -- Check delay.
      if TIM5_GetUifFlag c ≠ 0 then do
        -- Clear flag, update delay and go to next step.
        let delay ← tch_step_delay_us[c.lsmcu_speed_kmh]?
        let c := TIM5_SetDelayUs delay c
        let c := TIM5_ClearUifFlag c
        some { c with tch_state := .TCH_STATE_STEP1 }
      else
        some c

/-! ## Observations -/

/-- The levels of the six lines, in the order INH_A, INH_B, INH_C, PWM_A, PWM_B, PWM_C. -/
def TCH_Outputs (c : TCH_Context) : List Nat :=
  [c.GPIO_TCH_INH_A.level, c.GPIO_TCH_INH_B.level, c.GPIO_TCH_INH_C.level,
   c.GPIO_TCH_PWM_A.level, c.GPIO_TCH_PWM_B.level, c.GPIO_TCH_PWM_C.level]

/-- The sector that follows a sector in the commutation cycle; OFF is not a sector and is
left as it is. -/
def TCH_NextStep : TCH_State → TCH_State
  | .TCH_STATE_OFF => .TCH_STATE_OFF
  | .TCH_STATE_STEP1 => .TCH_STATE_STEP2
  | .TCH_STATE_STEP2 => .TCH_STATE_STEP3
  | .TCH_STATE_STEP3 => .TCH_STATE_STEP4
  | .TCH_STATE_STEP4 => .TCH_STATE_STEP5
  | .TCH_STATE_STEP5 => .TCH_STATE_STEP6
  | .TCH_STATE_STEP6 => .TCH_STATE_STEP1

/-- An invocation of `TCH_Task` reaches a `TIM5_SetDelayUs` call: the speed is at least the
minimum and either the state is OFF or the elapsed flag is set. -/
def TCH_LoadsDelay (c : TCH_Context) : Bool :=
  decide (TCH_SPEED_MIN_KMH ≤ c.lsmcu_speed_kmh) &&
    (decide (c.tch_state = .TCH_STATE_OFF) || c.tim5.uif)

/-- What happens between two invocations of `TCH_Task`: the vehicle-speed model writes the
shared speed and the timer hardware drives the elapsed flag. -/
def TCH_Environment (speed : Nat) (uif : Bool) (c : TCH_Context) : TCH_Context :=
  { c with lsmcu_speed_kmh := speed, tim5 := { c.tim5 with uif := uif } }

/-- A sequence of `TCH_Task` invocations, each preceded by the environment setting the speed
and the elapsed flag of that invocation. -/
def TCH_Run (c : TCH_Context) : List (Nat × Bool) → Option TCH_Context
  | [] => some c
  | (speed, uif) :: rest =>
    match TCH_Task (TCH_Environment speed uif c) with
    | none => none
    | some c' => TCH_Run c' rest

/-- The combination of the six lines (INH_A, INH_B, INH_C, PWM_A, PWM_B, PWM_C) that goes
with each state. -/
def TCH_Pattern : TCH_State → List Nat
  | .TCH_STATE_OFF => [0, 0, 0, 0, 0, 0]
  | .TCH_STATE_STEP1 => [1, 1, 0, 1, 0, 0]
  | .TCH_STATE_STEP2 => [1, 0, 1, 1, 0, 0]
  | .TCH_STATE_STEP3 => [0, 1, 1, 0, 1, 0]
  | .TCH_STATE_STEP4 => [1, 1, 0, 0, 1, 0]
  | .TCH_STATE_STEP5 => [1, 0, 1, 0, 0, 1]
  | .TCH_STATE_STEP6 => [0, 1, 1, 0, 0, 1]

/-- A context for examples: the given state, speed and elapsed flag, the six lines configured
as outputs at level 0, the timer stopped with no delay loaded. -/
def TCH_Example (st : TCH_State) (speed : Nat) (uif : Bool) : TCH_Context :=
  { tch_state := st, lsmcu_speed_kmh := speed,
    GPIO_TCH_INH_A := ⟨true, 0⟩, GPIO_TCH_INH_B := ⟨true, 0⟩, GPIO_TCH_INH_C := ⟨true, 0⟩,
    GPIO_TCH_PWM_A := ⟨true, 0⟩, GPIO_TCH_PWM_B := ⟨true, 0⟩, GPIO_TCH_PWM_C := ⟨true, 0⟩,
    tim5 := ⟨false, 0, uif⟩ }

/-- What the levels of the lines are known to be when an invocation starts in a given state:
nothing in OFF; PWM_B at 0 in STEP1 (entered from OFF or from STEP6); in every later sector
either the combination of the sector before it (just entered) or its own (an invocation has
already run in it). -/
def TCH_LinesInvariant (c : TCH_Context) : Prop :=
  match c.tch_state with
  | .TCH_STATE_OFF => True
  | .TCH_STATE_STEP1 => c.GPIO_TCH_PWM_B.level = 0
  | .TCH_STATE_STEP2 =>
    TCH_Outputs c = TCH_Pattern .TCH_STATE_STEP1 ∨ TCH_Outputs c = TCH_Pattern .TCH_STATE_STEP2
  | .TCH_STATE_STEP3 =>
    TCH_Outputs c = TCH_Pattern .TCH_STATE_STEP2 ∨ TCH_Outputs c = TCH_Pattern .TCH_STATE_STEP3
  | .TCH_STATE_STEP4 =>
    TCH_Outputs c = TCH_Pattern .TCH_STATE_STEP3 ∨ TCH_Outputs c = TCH_Pattern .TCH_STATE_STEP4
  | .TCH_STATE_STEP5 =>
    TCH_Outputs c = TCH_Pattern .TCH_STATE_STEP4 ∨ TCH_Outputs c = TCH_Pattern .TCH_STATE_STEP5
  | .TCH_STATE_STEP6 =>
    TCH_Outputs c = TCH_Pattern .TCH_STATE_STEP5 ∨ TCH_Outputs c = TCH_Pattern .TCH_STATE_STEP6

/-! ## Needle position controller (applicative/mano.h) -/

/-- Modelled from the spec: the `STEPPER_Context` of stepper.h, which is not among the
sources; of the stepper only "current_step", the step the needle is at, is kept. -/
structure STEPPER_Context where
  current_step : Nat
  deriving DecidableEq, Repr

/-- The structure `MANO_Context` of mano.h. -/
structure MANO_Context where
  mano_pressure_max_decibars : Nat
  mano_pressure_max_steps : Nat
  mano_needle_inertia_steps : Nat
  mano_enable : Nat
  mano_stepper : STEPPER_Context
  mano_start_step : Nat
  mano_target_step : Nat
  mano_step_it_count : Nat
  mano_step_it_period : Nat
  mano_step_it_period_min : Nat
  deriving DecidableEq, Repr

/-- Modelled from the spec: the `round` of "round(quantity * max_steps / max_quantity)", on
unsigned integers: the quotient `num / den` rounded to the nearest integer, halves up. -/
def MANO_Round (num den : Nat) : Nat :=
  (2 * num + den) / (2 * den)

/-- Modelled from the spec: `MANO_SetTarget` of mano.c, which is not among the sources;
"converts quantity to a target step via the linear scale (target_step = round(quantity *
max_steps / max_quantity), clamped to [0, max_steps]) and stores it; does not itself move the
needle". -/
def MANO_SetTarget (mano : MANO_Context) (pressure_decibars : Nat) : MANO_Context :=
  { mano with
    mano_target_step :=
      min (MANO_Round (pressure_decibars * mano.mano_pressure_max_steps)
            mano.mano_pressure_max_decibars)
        mano.mano_pressure_max_steps }

/-- Modelled from the spec: `MANO_GetPressure` of mano.c, which is not among the sources;
"inverse of the scale applied to the current step; a pure read": the conversion of
`MANO_SetTarget` with steps and quantity exchanged, rounded the same way. -/
def MANO_GetPressure (mano : MANO_Context) : Nat :=
  MANO_Round (mano.mano_stepper.current_step * mano.mano_pressure_max_decibars)
    mano.mano_pressure_max_steps

/-! ## KVB display (simulator/outputs/kvb.c) -/

/-- The macro `NUMBER_OF_SEGMENTS`: 7 segments + dot. -/
def NUMBER_OF_SEGMENTS : Nat := 8

/-- The macro `NUMBER_OF_DISPLAYS`: KVB has 6 7-segments displays. -/
def NUMBER_OF_DISPLAYS : Nat := 6

/-- Translation of `unsigned char KVB_AsciiTo7Segments(unsigned char ascii)`: the segment
configuration, coded as `<dot G F E D C B A>`, of a character; the cases of the switch in
their order, the default last. -/
def KVB_AsciiTo7Segments (ascii : Nat) : Nat :=
  if ascii = 'b'.toNat then 0b01111100
  else if ascii = 'c'.toNat then 0b01011000
  else if ascii = 'd'.toNat then 0b01011110
  else if ascii = 'h'.toNat then 0b01110100
  else if ascii = 'n'.toNat then 0b01010100
  else if ascii = 'o'.toNat then 0b01011100
  else if ascii = 'r'.toNat then 0b01010000
  else if ascii = 't'.toNat then 0b01111000
  else if ascii = 'u'.toNat then 0b00011100
  else if ascii = 'A'.toNat then 0b01110111
  else if ascii = 'C'.toNat then 0b00111001
  else if ascii = 'E'.toNat then 0b01111001
  else if ascii = 'F'.toNat then 0b01110001
  else if ascii = 'H'.toNat then 0b01110110
  else if ascii = 'J'.toNat then 0b00001110
  else if ascii = 'L'.toNat then 0b00111000
  else if ascii = 'P'.toNat then 0b01110011
  else if ascii = 'U'.toNat then 0b00111110
  else if ascii = 'Y'.toNat then 0b01101110
  else if ascii = '0'.toNat then 0b00111111
  else if ascii = '1'.toNat then 0b00000110
  else if ascii = '2'.toNat then 0b01011011
  else if ascii = '3'.toNat then 0b01001111
  else if ascii = '4'.toNat then 0b01100110
  else if ascii = '5'.toNat then 0b01101101
  else if ascii = '6'.toNat then 0b01111101
  else if ascii = '7'.toNat then 0b00000111
  else if ascii = '8'.toNat then 0b01111111
  else if ascii = '9'.toNat then 0b01101111
  else 0

/-- The characters that have a case in the switch of `KVB_AsciiTo7Segments`. -/
def KVB_SupportedCharacters : List Char :=
  ['b', 'c', 'd', 'h', 'n', 'o', 'r', 't', 'u',
   'A', 'C', 'E', 'F', 'H', 'J', 'L', 'P', 'U', 'Y',
   '0', '1', '2', '3', '4', '5', '6', '7', '8', '9']

/-- The static variables of kvb.c. -/
structure KVB_Context where
  asciiData : List Nat
  segmentsData : List Nat
  displayIndex : Nat
  segmentIndex : Nat
  interDisplay : Bool
  deriving DecidableEq, Repr

/-- A store `a[i] = v` into a C array: defined inside the bounds of the array only. -/
def array_store (a : List Nat) (i : Nat) (v : Nat) : Option (List Nat) :=
  if i < a.length then some (a.set i v) else none

/-- The loop `while (*display) { asciiData[charIndex] = *display++; charIndex++; if (charIndex
== NUMBER_OF_DISPLAYS) break; }` of `KVB_Display`.  `display` holds the bytes found at the
pointer; the byte that follows them is the terminating null character.  Returns the array and
`charIndex` at the exit of the loop. -/
def KVB_Display_copy (asciiData : List Nat) (charIndex : Nat) :
    List Nat → Option (List Nat × Nat)
  | [] => some (asciiData, charIndex)
  | ch :: display =>
    if ch = 0 then some (asciiData, charIndex)
    else
      match array_store asciiData charIndex ch with
      | none => none
      | some asciiData =>
        let charIndex := (charIndex + 1) % 256
        if charIndex = NUMBER_OF_DISPLAYS then
          -- Number of display reached.
          some (asciiData, charIndex)
        else KVB_Display_copy asciiData charIndex display

/-- Translation of `void KVB_Display(unsigned char* display)`. -/
def KVB_Display (display : List Nat) (k : KVB_Context) : Option KVB_Context := do
  let charIndex := 0
  -- Copy message into asciidata.
  let (asciiData, charIndex) ← KVB_Display_copy k.asciiData charIndex display
  -- Add null characters if necessary.
  let asciiData ← (List.range' charIndex (NUMBER_OF_DISPLAYS - charIndex)).foldlM
    (fun a i => array_store a i 0) asciiData
  -- Convert ASCII characters to segment configurations.
  let segmentsData ← (List.range' 0 NUMBER_OF_DISPLAYS).foldlM
    (fun seg i => do
      let ascii ← asciiData[i]?
      array_store seg i (KVB_AsciiTo7Segments ascii))
    k.segmentsData
  some { k with asciiData := asciiData, segmentsData := segmentsData }

/-! ## DAC (peripherals/analog/dac.c and peripherals/dac.c) -/

/-- The enumeration `DACChannel` of dac.h, which is not among the sources, with the two
enumerators that the switches of analog/dac.c name: Channel1 on PA4 and Channel2 on PA5. -/
inductive DACChannel where
  | Channel1
  | Channel2
  deriving DecidableEq, Repr

/-- The registers of the DAC peripheral (dac_reg.h, which is not among the sources): the
control register, the 12-bit right-aligned data holding register of each channel and the data
output register of each channel. -/
structure DAC_Registers where
  CR : Nat
  DHR12R1 : Nat
  DHR12R2 : Nat
  DOR1 : Nat
  DOR2 : Nat
  deriving DecidableEq, Repr

/-- DAC full scale value for 12-bits resolution, `#define DAC_FULL_SCALE 4095`. -/
def DAC_FULL_SCALE : Nat := 4095

/-- Translation of `void DAC_SetVoltage(DACChannel channel, unsigned int voltage)` of
peripherals/analog/dac.c. -/
def DAC_SetVoltage (channel : DACChannel) (voltage : Nat) (DAC : DAC_Registers) :
    DAC_Registers :=
  if voltage ≥ 0 ∧ voltage ≤ DAC_FULL_SCALE then
    match channel with
    | .Channel1 => { DAC with DHR12R1 := voltage }
    | .Channel2 => { DAC with DHR12R1 := voltage }
  else DAC

/-- Translation of `unsigned int DAC_GetVoltage(DACChannel channel)` of
peripherals/analog/dac.c. -/
def DAC_GetVoltage (channel : DACChannel) (DAC : DAC_Registers) : Nat :=
  match channel with
  | .Channel1 => DAC.DOR1
  | .Channel2 => DAC.DOR2

/-- Translation of `void DAC_SetVoltageMv(unsigned int voltage_mv)` of peripherals/dac.c.  The
macro `VCC_MV` is defined in a header that is not among the sources and is a parameter; the
product is an `unsigned int` and wraps at 2^32. -/
def DAC_SetVoltageMv (VCC_MV : Nat) (voltage_mv : Nat) (DAC : DAC_Registers) :
    DAC_Registers :=
  -- Ensure new voltage is reachable.
  let real_voltage_mv := voltage_mv
  let real_voltage_mv := if real_voltage_mv < 0 then 0 else real_voltage_mv
  let real_voltage_mv := if real_voltage_mv > VCC_MV then VCC_MV else real_voltage_mv
  { DAC with DHR12R1 := ((DAC_FULL_SCALE * real_voltage_mv) % 2 ^ 32) / VCC_MV }

/-! ## ADC (peripherals/adc.c) -/

/-- The macro `ADC_CHANNEL_MAX`. -/
def ADC_CHANNEL_MAX : Nat := 18

/-- The registers of ADC1 that adc.c names in the functions at hand (adc_reg.h is not among
the sources); each is a 32-bit word. -/
structure ADC_Registers where
  SR : Nat
  CR2 : Nat
  SQR3 : Nat
  DR : Nat
  deriving DecidableEq, Repr

/-- The complement `~x` of a 32-bit word. -/
def uint32_not (x : Nat) : Nat :=
  2 ^ 32 - 1 - x % 2 ^ 32

/-- Translation of `void ADC1_SetChannel(unsigned char channel)`. -/
def ADC1_SetChannel (channel : Nat) (ADC1 : ADC_Registers) : ADC_Registers :=
  -- Ensure channel ranges between 0 and 18.
  let local_channel := channel
  let local_channel :=
    if local_channel > ADC_CHANNEL_MAX then ADC_CHANNEL_MAX else local_channel
  -- Set channel.
  let ADC1 := { ADC1 with SQR3 := ADC1.SQR3 &&& uint32_not (0b11111 <<< 0) }
  { ADC1 with SQR3 := ADC1.SQR3 ||| local_channel }

/-! ## Properties of a single invocation below the minimum speed -/

/-- C1, as stated, fails: from STEP1 at speed 0 one invocation does reach OFF, but it leaves
INH_A, INH_B and PWM_A at 1 (the levels the STEP1 case has just written). -/
theorem C1_outputs_not_deasserted_from_step1 :
    (TCH_Task (TCH_Example .TCH_STATE_STEP1 0 false)).map
        (fun c => (c.tch_state, TCH_Outputs c))
      = some (.TCH_STATE_OFF, [1, 1, 0, 1, 0, 0]) := by
  decide

/-- C1, amended: for every state, every elapsed-flag value and every speed below 5 km/h, one
invocation of `TCH_Task` returns and leaves the state OFF; when the invocation started in OFF
the six lines are all at 0 after it. -/
theorem C1_below_min_speed_goes_off (c : TCH_Context)
    (hv : c.lsmcu_speed_kmh < 5) :
    ∃ c', TCH_Task c = some c' ∧ c'.tch_state = .TCH_STATE_OFF ∧
      (c.tch_state = .TCH_STATE_OFF → TCH_Outputs c' = [0, 0, 0, 0, 0, 0]) := by
  obtain ⟨st, v, a, b, cc, pa, pb, pc, t⟩ := c
  have h5 : ¬ (5 ≤ v) := by simpa using hv
  have hv' : v < 5 := hv
  cases st <;>
    simp [TCH_Task, GPIO_Write, TIM5_Stop, TCH_SPEED_MIN_KMH, TCH_Outputs, hv', h5]

/-- Witness for C1 (amended): STEP3 at speed 4 with the elapsed flag set. -/
theorem C1_below_min_speed_goes_off_witness :
    (TCH_Example .TCH_STATE_STEP3 4 true).lsmcu_speed_kmh < 5 ∧
    ∃ c', TCH_Task (TCH_Example .TCH_STATE_STEP3 4 true) = some c' ∧
      c'.tch_state = .TCH_STATE_OFF ∧
      ((TCH_Example .TCH_STATE_STEP3 4 true).tch_state = .TCH_STATE_OFF →
        TCH_Outputs c' = [0, 0, 0, 0, 0, 0]) :=
  ⟨by decide, C1_below_min_speed_goes_off _ (by decide)⟩

/-! ## The delay loaded into the timer -/

/-- C2, as stated, fails.  At speed 155, above the claimed maximum of 150, the invocation from
OFF loads 12010, the entry at index 155, and not 12408, the entry at index 150 that a clamp to
150 would select; at speed 161 the index is past the last entry of the table and the read has
no value, where a clamp would have read the last entry. -/
theorem C2_speed_is_not_clamped :
    (TCH_Task (TCH_Example .TCH_STATE_OFF 155 false)).map (fun c => c.tim5.delay_us)
        = some 12010 ∧
      tch_step_delay_us[min 155 150]? = some 12408 ∧
      TCH_Task (TCH_Example .TCH_STATE_OFF 161 false) = none ∧
      TCH_Task (TCH_Example .TCH_STATE_STEP1 161 true) = none ∧
      tch_step_delay_us[161]? = none := by
  refine ⟨?_, ?_, ?_, ?_, ?_⟩ <;> rfl

/-- C2, amended: in every invocation that loads the timer delay (speed at least 5, from OFF or
with the elapsed flag set), the shared speed itself is the index, without a clamp.  When the
speed is at most 160 (the last index of the 161 entries) the invocation returns and the delay
loaded is the table entry at that speed; when the speed is above 160 the index is outside the
table and the invocation has no result. -/
theorem C2_delay_is_table_at_speed (c : TCH_Context)
    (hl : TCH_LoadsDelay c = true) :
    (TCH_Task c).map (fun c' => c'.tim5.delay_us) = tch_step_delay_us[c.lsmcu_speed_kmh]? ∧
    (c.lsmcu_speed_kmh ≤ 160 →
      ∃ c', TCH_Task c = some c' ∧
        tch_step_delay_us[min c.lsmcu_speed_kmh 160]? = some c'.tim5.delay_us) ∧
    (160 < c.lsmcu_speed_kmh → TCH_Task c = none) := by
  obtain ⟨st, v, a, b, cc, pa, pb, pc, ⟨r, d, f⟩⟩ := c
  have hlen : tch_step_delay_us.length = 161 := rfl
  simp only [TCH_LoadsDelay, TCH_SPEED_MIN_KMH, Bool.and_eq_true, Bool.or_eq_true,
    decide_eq_true_eq] at hl
  obtain ⟨h5, hs⟩ := hl
  have h5' : ¬ (v < 5) := by omega
  have key : (TCH_Task ⟨st, v, a, b, cc, pa, pb, pc, ⟨r, d, f⟩⟩).map
      (fun c' => c'.tim5.delay_us) = tch_step_delay_us[v]? := by
    have hf : ∀ o : Option Nat,
        (o.bind fun delay => some delay) = o := fun o => by cases o <;> rfl
    cases st <;> rcases hs with hs | hs <;> (try cases hs) <;>
      simp [TCH_Task, GPIO_Write, TIM5_Start, TIM5_SetDelayUs, TIM5_ClearUifFlag,
        TIM5_GetUifFlag, TCH_SPEED_MIN_KMH, h5, h5', Option.map, Option.bind] <;>
      cases tch_step_delay_us[v]? <;> rfl
  refine ⟨key, ?_, ?_⟩
  · intro hle
    dsimp only at hle
    have hlt : v < tch_step_delay_us.length := by omega
    have hget : tch_step_delay_us[v]? = some tch_step_delay_us[v] :=
      List.getElem?_eq_getElem hlt
    rw [hget] at key
    cases ht : TCH_Task ⟨st, v, a, b, cc, pa, pb, pc, ⟨r, d, f⟩⟩ with
    | none => rw [ht] at key; simp at key
    | some c' =>
      rw [ht] at key
      refine ⟨c', rfl, ?_⟩
      have hmin : min v 160 = v := by omega
      simp only [Option.map_some', Option.some.injEq] at key
      simp only [hmin, hget, key]
  · intro hgt
    dsimp only at hgt
    have hnone : tch_step_delay_us[v]? = none :=
      List.getElem?_eq_none (by omega)
    rw [hnone] at key
    simpa using key

/-- Witness for C2 (amended): STEP4 at 160 km/h with the elapsed flag set. -/
theorem C2_delay_is_table_at_speed_witness :
    TCH_LoadsDelay (TCH_Example .TCH_STATE_STEP4 160 true) = true ∧
    (TCH_Task (TCH_Example .TCH_STATE_STEP4 160 true)).map (fun c' => c'.tim5.delay_us)
      = some 11637 :=
  ⟨by decide, (C2_delay_is_table_at_speed _ (by decide)).1.trans rfl⟩

/-! ## Sector-to-sector evolution -/

/-- C3: in a sector state with the speed at least 5 km/h, when the elapsed flag is set the
invocation loads the delay with the table entry at the speed read in this invocation
(whatever delay was loaded before), clears the flag and moves to the next sector, STEP6 going
back to STEP1; the invocation returns whenever the table has an entry at that speed, which is
the case up to 160 km/h.  When the flag is not set the invocation returns with the state, the
delay and the flag unchanged. -/
theorem C3_sector_advances_on_elapsed_flag (c : TCH_Context)
    (hs : c.tch_state ≠ .TCH_STATE_OFF) (hv : 5 ≤ c.lsmcu_speed_kmh) :
    (c.tim5.uif = true →
      (TCH_Task c).map (fun c' => (c'.tch_state, c'.tim5)) =
        (tch_step_delay_us[c.lsmcu_speed_kmh]?).map
          (fun d => (TCH_NextStep c.tch_state, ⟨c.tim5.running, d, false⟩))) ∧
    (c.tim5.uif = true → c.lsmcu_speed_kmh ≤ 160 →
      ∃ c', TCH_Task c = some c' ∧ c'.tch_state = TCH_NextStep c.tch_state ∧
        some c'.tim5.delay_us = tch_step_delay_us[c.lsmcu_speed_kmh]? ∧
        c'.tim5.uif = false) ∧
    (c.tim5.uif = false →
      (TCH_Task c).map (fun c' => (c'.tch_state, c'.tim5)) = some (c.tch_state, c.tim5)) := by
  obtain ⟨st, v, a, b, cc, pa, pb, pc, ⟨r, d, f⟩⟩ := c
  dsimp only at hs hv ⊢
  have h5 : ¬ (v < 5) := by omega
  have key : f = true →
      (TCH_Task ⟨st, v, a, b, cc, pa, pb, pc, ⟨r, d, f⟩⟩).map
          (fun c' => (c'.tch_state, c'.tim5)) =
        (tch_step_delay_us[v]?).map (fun d => (TCH_NextStep st, ⟨r, d, false⟩)) := by
    intro hf
    subst hf
    cases st <;> first
      | exact absurd rfl hs
      | (simp [TCH_Task, GPIO_Write, TIM5_SetDelayUs, TIM5_ClearUifFlag, TIM5_GetUifFlag,
          TCH_SPEED_MIN_KMH, TCH_NextStep, h5, Option.map, Option.bind]
         cases tch_step_delay_us[v]? <;> rfl)
  refine ⟨key, ?_, ?_⟩
  · intro hf hle
    have hlt : v < tch_step_delay_us.length := by
      have hlen : tch_step_delay_us.length = 161 := rfl
      omega
    have hget : tch_step_delay_us[v]? = some tch_step_delay_us[v] :=
      List.getElem?_eq_getElem hlt
    have hk := key hf
    rw [hget] at hk
    cases ht : TCH_Task ⟨st, v, a, b, cc, pa, pb, pc, ⟨r, d, f⟩⟩ with
    | none => rw [ht] at hk; simp at hk
    | some c' =>
      rw [ht] at hk
      simp only [Option.map_some', Option.some.injEq, Prod.mk.injEq] at hk
      refine ⟨c', rfl, hk.1, ?_, ?_⟩
      · rw [hget, hk.2]
      · rw [hk.2]
  · intro hf
    subst hf
    cases st <;> first
      | exact absurd rfl hs
      | simp [TCH_Task, GPIO_Write, TIM5_GetUifFlag, TCH_SPEED_MIN_KMH, h5]

/-- Witness for C3: STEP6 at 80 km/h with the elapsed flag set, the previous delay being that
of 20 km/h; the invocation loads 23136, the entry at 80, and goes back to STEP1. -/
theorem C3_sector_advances_on_elapsed_flag_witness :
    (TCH_Task { TCH_Example .TCH_STATE_STEP6 80 true with tim5 := ⟨true, 89366, true⟩ }).map
        (fun c' => (c'.tch_state, c'.tim5))
      = some (.TCH_STATE_STEP1, ⟨true, 23136, false⟩) :=
  ((C3_sector_advances_on_elapsed_flag
    { TCH_Example .TCH_STATE_STEP6 80 true with tim5 := ⟨true, 89366, true⟩ }
    (by decide) (by decide)).1 rfl).trans rfl

/-- C4: from OFF, an invocation at a speed below 5 km/h returns with the state still OFF and
the timer untouched (not started, delay and flag as they were); at a speed of at least 5 km/h
it starts the timer, loads the table entry at that speed, clears the flag and moves to STEP1,
returning whenever the table has an entry at that speed (up to 160 km/h).  The state after
the invocation is STEP1 if and only if the speed is at least 5 km/h, and the entry at 60 km/h
is 30727 us. -/
theorem C4_off_starts_iff_min_speed (c : TCH_Context)
    (hs : c.tch_state = .TCH_STATE_OFF) :
    (c.lsmcu_speed_kmh < 5 →
      (TCH_Task c).map (fun c' => (c'.tch_state, c'.tim5))
        = some (.TCH_STATE_OFF, c.tim5)) ∧
    (5 ≤ c.lsmcu_speed_kmh →
      (TCH_Task c).map (fun c' => (c'.tch_state, c'.tim5)) =
        (tch_step_delay_us[c.lsmcu_speed_kmh]?).map
          (fun d => (.TCH_STATE_STEP1, ⟨true, d, false⟩))) ∧
    (∀ c', TCH_Task c = some c' →
      (c'.tch_state = .TCH_STATE_STEP1 ↔ 5 ≤ c.lsmcu_speed_kmh)) ∧
    (c.lsmcu_speed_kmh ≤ 160 → ∃ c', TCH_Task c = some c') ∧
    tch_step_delay_us[60]? = some 30727 := by
  obtain ⟨st, v, a, b, cc, pa, pb, pc, ⟨r, d, f⟩⟩ := c
  dsimp only at hs ⊢
  subst hs
  have hlow : v < 5 →
      TCH_Task ⟨.TCH_STATE_OFF, v, a, b, cc, pa, pb, pc, ⟨r, d, f⟩⟩ =
        some ⟨.TCH_STATE_OFF, v, ⟨a.output_mode, 0⟩, ⟨b.output_mode, 0⟩, ⟨cc.output_mode, 0⟩,
          ⟨pa.output_mode, 0⟩, ⟨pb.output_mode, 0⟩, ⟨pc.output_mode, 0⟩, ⟨r, d, f⟩⟩ := by
    intro h
    have h5 : ¬ (5 ≤ v) := by omega
    simp [TCH_Task, GPIO_Write, TCH_SPEED_MIN_KMH, h5]
  have hhigh : 5 ≤ v →
      TCH_Task ⟨.TCH_STATE_OFF, v, a, b, cc, pa, pb, pc, ⟨r, d, f⟩⟩ =
        (tch_step_delay_us[v]?).map (fun x =>
          ⟨.TCH_STATE_STEP1, v, ⟨a.output_mode, 0⟩, ⟨b.output_mode, 0⟩, ⟨cc.output_mode, 0⟩,
            ⟨pa.output_mode, 0⟩, ⟨pb.output_mode, 0⟩, ⟨pc.output_mode, 0⟩,
            ⟨true, x, false⟩⟩) := by
    intro h
    simp [TCH_Task, GPIO_Write, TIM5_Start, TIM5_SetDelayUs, TIM5_ClearUifFlag,
      TCH_SPEED_MIN_KMH, h, Option.map, Option.bind]
    cases tch_step_delay_us[v]? <;> rfl
  refine ⟨?_, ?_, ?_, ?_, rfl⟩
  · intro h
    rw [hlow h]
    rfl
  · intro h
    rw [hhigh h]
    cases tch_step_delay_us[v]? <;> rfl
  · intro c' hc'
    rcases Nat.lt_or_ge v 5 with h | h
    · rw [hlow h] at hc'
      cases hc'
      simp
      omega
    · rw [hhigh h] at hc'
      cases hq : tch_step_delay_us[v]? with
      | none => rw [hq] at hc'; cases hc'
      | some x =>
        rw [hq] at hc'
        cases hc'
        simp [h]
  · intro hle
    rcases Nat.lt_or_ge v 5 with h | h
    · exact ⟨_, hlow h⟩
    · have hlt : v < tch_step_delay_us.length := by
        have hlen : tch_step_delay_us.length = 161 := rfl
        omega
      rw [hhigh h, List.getElem?_eq_getElem hlt]
      exact ⟨_, rfl⟩

/-- Witness for C4: from OFF at 60 km/h the invocation starts the timer with 30727 us, clears
the flag and moves to STEP1. -/
theorem C4_off_starts_iff_min_speed_witness :
    (TCH_Task (TCH_Example .TCH_STATE_OFF 60 true)).map (fun c' => (c'.tch_state, c'.tim5))
      = some (.TCH_STATE_STEP1, ⟨true, 30727, false⟩) :=
  ((C4_off_starts_iff_min_speed (TCH_Example .TCH_STATE_OFF 60 true) rfl).2.1
    (by decide)).trans rfl

/-! ## Executions from `TCH_Init` -/

/-- Initialisation establishes the invariant on the lines: it leaves the state OFF. -/
theorem TCH_LinesInvariant_init (c : TCH_Context) : TCH_LinesInvariant (TCH_Init c) := by
  simp [TCH_LinesInvariant, TCH_Init, GPIO_Configure]

/-- One invocation, at any speed and flag, keeps the invariant on the lines and leaves the
lines in the combination of the state it started in. -/
theorem TCH_LinesInvariant_task (c c' : TCH_Context) (speed : Nat) (uif : Bool)
    (hinv : TCH_LinesInvariant c)
    (ht : TCH_Task (TCH_Environment speed uif c) = some c') :
    TCH_LinesInvariant c' ∧ TCH_Outputs c' = TCH_Pattern c.tch_state := by
  obtain ⟨st, v, a, b, cc, pa, pb, pc, ⟨r, d, f⟩⟩ := c
  cases st <;>
    simp only [TCH_LinesInvariant, TCH_Outputs, TCH_Pattern, List.cons.injEq, and_true]
      at hinv <;>
    simp only [TCH_Task, TCH_Environment, GPIO_Write, TIM5_Start, TIM5_Stop, TIM5_SetDelayUs,
      TIM5_ClearUifFlag, TIM5_GetUifFlag, TCH_SPEED_MIN_KMH] at ht <;>
    split at ht <;>
    first
      | (cases ht; simp [TCH_LinesInvariant, TCH_Outputs, TCH_Pattern]; all_goals omega)
      | (cases hq : tch_step_delay_us[speed]? with
         | none => simp [hq] at ht
         | some x =>
           simp only [hq, Option.bind_eq_bind, Option.some_bind] at ht
           cases ht
           simp [TCH_LinesInvariant, TCH_Outputs, TCH_Pattern])
      | (split at ht <;> first
          | (cases ht; simp [TCH_LinesInvariant, TCH_Outputs, TCH_Pattern]; all_goals omega)
          | (cases hq : tch_step_delay_us[speed]? with
             | none => simp [hq] at ht
             | some x =>
               simp only [hq, Option.bind_eq_bind, Option.some_bind] at ht
               cases ht
               simp [TCH_LinesInvariant, TCH_Outputs, TCH_Pattern]; all_goals omega))

/-- The invariant on the lines holds after every execution that holds it at the start. -/
theorem TCH_LinesInvariant_run (ins : List (Nat × Bool)) :
    ∀ c c' : TCH_Context, TCH_LinesInvariant c → TCH_Run c ins = some c' →
      TCH_LinesInvariant c' := by
  induction ins with
  | nil =>
    intro c c' hinv hrun
    simp only [TCH_Run, Option.some.injEq] at hrun
    exact hrun ▸ hinv
  | cons i rest ih =>
    intro c c' hinv hrun
    obtain ⟨speed, uif⟩ := i
    simp only [TCH_Run] at hrun
    cases ht : TCH_Task (TCH_Environment speed uif c) with
    | none => rw [ht] at hrun; cases hrun
    | some c1 =>
      rw [ht] at hrun
      exact ih c1 c' (TCH_LinesInvariant_task c c1 speed uif hinv ht).1 hrun

/-- C5: in every execution that starts with `TCH_Init` (from any prior context) and goes on
with any sequence of `TCH_Task` invocations at arbitrary speeds and elapsed flags, the levels
of the six lines after an invocation are the combination `TCH_Pattern` of the state the
invocation ran in, whatever the path to that state; the combinations of two different states,
and so of two different sectors, are different. -/
theorem C5_outputs_fixed_per_sector (c0 : TCH_Context) (ins : List (Nat × Bool))
    (c c' : TCH_Context) (speed : Nat) (uif : Bool)
    (hrun : TCH_Run (TCH_Init c0) ins = some c)
    (ht : TCH_Task (TCH_Environment speed uif c) = some c') :
    TCH_Outputs c' = TCH_Pattern c.tch_state ∧
    (∀ s t : TCH_State, TCH_Pattern s = TCH_Pattern t → s = t) := by
  have hinv : TCH_LinesInvariant c :=
    TCH_LinesInvariant_run ins (TCH_Init c0) c (TCH_LinesInvariant_init c0) hrun
  refine ⟨(TCH_LinesInvariant_task c c' speed uif hinv ht).2, ?_⟩
  intro s t
  cases s <;> cases t <;> simp [TCH_Pattern]

/-- Witness for C5: after `TCH_Init` and three invocations at 60 km/h (the last two with the
flag set) the state is STEP3 with the lines still in the combination of STEP2; the next
invocation, at 90 km/h, leaves the combination of STEP3. -/
theorem C5_outputs_fixed_per_sector_witness :
    TCH_Run (TCH_Init (TCH_Example .TCH_STATE_STEP5 33 true))
        [(60, false), (60, true), (60, true)]
      = some ⟨.TCH_STATE_STEP3, 60, ⟨true, 1⟩, ⟨true, 0⟩, ⟨true, 1⟩, ⟨true, 1⟩, ⟨true, 0⟩,
          ⟨true, 0⟩, ⟨true, 30727, false⟩⟩ ∧
    TCH_Outputs ⟨.TCH_STATE_STEP3, 90, ⟨true, 0⟩, ⟨true, 1⟩, ⟨true, 1⟩, ⟨true, 0⟩, ⟨true, 1⟩,
          ⟨true, 0⟩, ⟨true, 30727, false⟩⟩ = [0, 1, 1, 0, 1, 0] :=
  ⟨rfl, (C5_outputs_fixed_per_sector (TCH_Example .TCH_STATE_STEP5 33 true)
    [(60, false), (60, true), (60, true)]
    ⟨.TCH_STATE_STEP3, 60, ⟨true, 1⟩, ⟨true, 0⟩, ⟨true, 1⟩, ⟨true, 1⟩, ⟨true, 0⟩,
      ⟨true, 0⟩, ⟨true, 30727, false⟩⟩
    ⟨.TCH_STATE_STEP3, 90, ⟨true, 0⟩, ⟨true, 1⟩, ⟨true, 1⟩, ⟨true, 0⟩, ⟨true, 1⟩,
      ⟨true, 0⟩, ⟨true, 30727, false⟩⟩
    90 false rfl rfl).1⟩

/-! ## Stopping and the causes of a transition -/

/-- C6: in every sector state and at every speed below 5 km/h, whatever the elapsed flag, one
invocation returns with the state OFF and the timer stopped, its delay and its flag being
what they were before the invocation. -/
theorem C6_sector_stops_below_min_speed (c : TCH_Context)
    (hs : c.tch_state ≠ .TCH_STATE_OFF) (hv : c.lsmcu_speed_kmh < 5) :
    ∃ c', TCH_Task c = some c' ∧ c'.tch_state = .TCH_STATE_OFF ∧
      c'.tim5 = { c.tim5 with running := false } := by
  obtain ⟨st, v, a, b, cc, pa, pb, pc, ⟨r, d, f⟩⟩ := c
  have hv' : v < 5 := hv
  cases st <;> first
    | exact absurd rfl hs
    | simp [TCH_Task, GPIO_Write, TIM5_Stop, TCH_SPEED_MIN_KMH, hv']

/-- Witness for C6: STEP3 at speed 0 with the elapsed flag set goes to OFF, not to STEP4. -/
theorem C6_sector_stops_below_min_speed_witness :
    ∃ c', TCH_Task { TCH_Example .TCH_STATE_STEP3 0 true with tim5 := ⟨true, 23136, true⟩ }
        = some c' ∧ c'.tch_state = .TCH_STATE_OFF ∧ c'.tim5 = ⟨false, 23136, true⟩ :=
  C6_sector_stops_below_min_speed
    { TCH_Example .TCH_STATE_STEP3 0 true with tim5 := ⟨true, 23136, true⟩ }
    (by decide) (by decide)

/-- C7, as stated, fails: from OFF at 60 km/h with the elapsed flag not set, the invocation
changes the state to STEP1 although the flag is not set and the speed is not below 5. -/
theorem C7_off_leaves_without_flag :
    (TCH_Example .TCH_STATE_OFF 60 false).tim5.uif = false ∧
    ¬ ((TCH_Example .TCH_STATE_OFF 60 false).lsmcu_speed_kmh < 5) ∧
    (TCH_Task (TCH_Example .TCH_STATE_OFF 60 false)).map (fun c => c.tch_state)
      = some .TCH_STATE_STEP1 ∧
    (TCH_Example .TCH_STATE_OFF 60 false).tch_state ≠ .TCH_STATE_STEP1 := by
  refine ⟨rfl, by decide, rfl, by decide⟩

/-- C7, amended: whenever an invocation changes the state, the elapsed flag was set at that
invocation, or the speed was below 5 km/h, or the invocation started in OFF with a speed of at
least 5 km/h (the start of the drive, which needs neither). -/
theorem C7_causes_of_a_transition (c c' : TCH_Context)
    (ht : TCH_Task c = some c') (hchg : c'.tch_state ≠ c.tch_state) :
    c.tim5.uif = true ∨ c.lsmcu_speed_kmh < 5 ∨
      (c.tch_state = .TCH_STATE_OFF ∧ 5 ≤ c.lsmcu_speed_kmh) := by
  obtain ⟨st, v, a, b, cc, pa, pb, pc, ⟨r, d, f⟩⟩ := c
  dsimp only at hchg ⊢
  rcases Nat.lt_or_ge v 5 with hv | hv
  · exact Or.inr (Or.inl hv)
  · cases f with
    | true => exact Or.inl rfl
    | false =>
      refine Or.inr (Or.inr ⟨?_, hv⟩)
      have h5 : ¬ (v < 5) := by omega
      cases st <;> first
        | rfl
        | (simp [TCH_Task, GPIO_Write, TIM5_GetUifFlag, TCH_SPEED_MIN_KMH, h5] at ht
           subst ht
           exact absurd rfl hchg)

/-- Witness for C7 (amended): STEP2 at 100 km/h with the elapsed flag set moves to STEP3. -/
theorem C7_causes_of_a_transition_witness :
    (TCH_Example .TCH_STATE_STEP2 100 true).tim5.uif = true ∨
      (TCH_Example .TCH_STATE_STEP2 100 true).lsmcu_speed_kmh < 5 ∨
      ((TCH_Example .TCH_STATE_STEP2 100 true).tch_state = .TCH_STATE_OFF ∧
        5 ≤ (TCH_Example .TCH_STATE_STEP2 100 true).lsmcu_speed_kmh) :=
  C7_causes_of_a_transition (TCH_Example .TCH_STATE_STEP2 100 true)
    ⟨.TCH_STATE_STEP3, 100, ⟨true, 0⟩, ⟨true, 0⟩, ⟨true, 1⟩, ⟨true, 0⟩, ⟨true, 0⟩, ⟨true, 0⟩,
      ⟨false, 18553, false⟩⟩
    rfl (by decide)

/-! ## The speed-to-delay table -/

/-- From index 5 on, the entries of the table strictly decrease. -/
theorem tch_tail_decreasing :
    (tch_step_delay_us.drop 5).Pairwise (fun x y => y < x) := by
  decide

/-- From index 5 on, the entries of the table are positive. -/
theorem tch_tail_positive : ∀ x ∈ tch_step_delay_us.drop 5, 0 < x := by
  decide

/-- Two entries of the table at indices `5 ≤ a < b`: the later one is positive and strictly
smaller. -/
theorem tch_engaged_strict (a b x y : Nat) (ha : 5 ≤ a) (hab : a < b)
    (hx : tch_step_delay_us[a]? = some x) (hy : tch_step_delay_us[b]? = some y) :
    y < x ∧ 0 < y := by
  have hx' : (tch_step_delay_us.drop 5)[a - 5]? = some x := by
    rw [List.getElem?_drop, ← hx]
    congr 1
    omega
  have hy' : (tch_step_delay_us.drop 5)[b - 5]? = some y := by
    rw [List.getElem?_drop, ← hy]
    congr 1
    omega
  obtain ⟨hi, hxi⟩ := List.getElem?_eq_some.mp hx'
  obtain ⟨hj, hyj⟩ := List.getElem?_eq_some.mp hy'
  have hlt := List.pairwise_iff_getElem.mp tch_tail_decreasing (a - 5) (b - 5) hi hj
    (by omega)
  rw [hxi, hyj] at hlt
  exact ⟨hlt, tch_tail_positive y (List.getElem?_mem hy')⟩

/-- C8, as stated, fails: the entry at 4 km/h is 0 and the entry at 5 km/h is 314278, so the
table increases between the last disengaged speed and the first engaged one. -/
theorem C8_table_increases_at_min_speed :
    tch_step_delay_us[4]? = some 0 ∧ tch_step_delay_us[5]? = some 314278 ∧
      ¬ (∀ a b x y : Nat, a ≤ b → tch_step_delay_us[a]? = some x →
          tch_step_delay_us[b]? = some y → y ≤ x) := by
  refine ⟨rfl, rfl, ?_⟩
  intro h
  have := h 4 5 0 314278 (by decide) rfl rfl
  omega

/-- C8, amended: the table is non-increasing from the minimum speed on: for every pair of
speeds `5 ≤ a ≤ b` that index the table, the entry at `a` is at least the entry at `b`. -/
theorem C8_table_non_increasing_from_min_speed (a b x y : Nat)
    (ha : TCH_SPEED_MIN_KMH ≤ a) (hab : a ≤ b)
    (hx : tch_step_delay_us[a]? = some x) (hy : tch_step_delay_us[b]? = some y) :
    y ≤ x := by
  rcases Nat.eq_or_lt_of_le hab with h | h
  · subst h
    rw [hx] at hy
    cases hy
    exact Nat.le_refl _
  · exact Nat.le_of_lt (tch_engaged_strict a b x y ha h hx hy).1

/-- Witness for C8 (amended): 60 km/h and 150 km/h. -/
theorem C8_table_non_increasing_from_min_speed_witness : 12408 ≤ 30727 :=
  C8_table_non_increasing_from_min_speed 60 150 30727 12408 (by decide) (by decide) rfl rfl

/-- C9, as stated, fails on the number of entries: the table has 161 entries, not 151, and
its entries past index 150 are not zero (the last one, at 160 km/h, is 11637). -/
theorem C9_table_has_161_entries :
    tch_step_delay_us.length = 161 ∧ tch_step_delay_us.length ≠ 151 ∧
      tch_step_delay_us[160]? = some 11637 := by
  refine ⟨rfl, by decide, rfl⟩

/-- C9, amended: the table has 161 entries (speeds 0 to 160); an entry is 0 exactly when its
speed is below 5; and on the engaged range the delay strictly decreases and stays positive:
for all `5 ≤ a < b ≤ 160`, `table[a] > table[b] > 0`. -/
theorem C9_table_shape :
    tch_step_delay_us.length = 161 ∧
    (∀ v : Nat, tch_step_delay_us[v]? = some 0 ↔ v < 5) ∧
    (∀ a b : Nat, 5 ≤ a → a < b → b ≤ 160 →
      ∃ x y, tch_step_delay_us[a]? = some x ∧ tch_step_delay_us[b]? = some y ∧
        y < x ∧ 0 < y) := by
  have hlen : tch_step_delay_us.length = 161 := rfl
  refine ⟨hlen, ?_, ?_⟩
  · intro v
    constructor
    · intro h
      by_contra hv
      have hv5 : 5 ≤ v := by omega
      have hd : (tch_step_delay_us.drop 5)[v - 5]? = some 0 := by
        rw [List.getElem?_drop, ← h]
        congr 1
        omega
      have := tch_tail_positive 0 (List.getElem?_mem hd)
      omega
    · intro h
      have h5 : v = 0 ∨ v = 1 ∨ v = 2 ∨ v = 3 ∨ v = 4 := by omega
      rcases h5 with h | h | h | h | h <;> subst h <;> rfl
  · intro a b ha hab hb
    have hx : tch_step_delay_us[a]? = some tch_step_delay_us[a] :=
      List.getElem?_eq_getElem (by omega)
    have hy : tch_step_delay_us[b]? = some tch_step_delay_us[b] :=
      List.getElem?_eq_getElem (by omega)
    exact ⟨_, _, hx, hy, tch_engaged_strict a b _ _ ha hab hx hy⟩

/-- Witness for C9 (amended): the entries at 5 and 160 km/h. -/
theorem C9_table_shape_witness :
    ∃ x y, tch_step_delay_us[5]? = some x ∧ tch_step_delay_us[160]? = some y ∧
      y < x ∧ 0 < y :=
  C9_table_shape.2.2 5 160 (by decide) (by decide) (by decide)

/-! ## Initialisation -/

/-- C10: from any prior context `TCH_Init` leaves the state OFF and the shared speed at 0, and
calling it twice in a row gives the same context as calling it once. -/
theorem C10_init_resets_and_is_idempotent (c : TCH_Context) :
    (TCH_Init c).tch_state = .TCH_STATE_OFF ∧ (TCH_Init c).lsmcu_speed_kmh = 0 ∧
      TCH_Init (TCH_Init c) = TCH_Init c := by
  refine ⟨rfl, rfl, rfl⟩

/-! ## Staying off below the minimum speed -/

/-- One invocation with the speed of that invocation below 5 km/h returns, leaves the state
OFF and, when it started in OFF, leaves the six lines at 0. -/
theorem TCH_Task_below_min_speed (c : TCH_Context) (speed : Nat) (uif : Bool)
    (hv : speed < 5) :
    ∃ c1, TCH_Task (TCH_Environment speed uif c) = some c1 ∧
      c1.tch_state = .TCH_STATE_OFF ∧
      (c.tch_state = .TCH_STATE_OFF → TCH_Outputs c1 = [0, 0, 0, 0, 0, 0]) := by
  obtain ⟨st, v, a, b, cc, pa, pb, pc, t⟩ := c
  have h5 : ¬ (5 ≤ speed) := by omega
  cases st <;>
    simp [TCH_Task, TCH_Environment, GPIO_Write, TIM5_Stop, TCH_SPEED_MIN_KMH, TCH_Outputs,
      hv, h5]

/-- From OFF, a sequence of invocations all at speeds below 5 km/h returns with the state
OFF, and with the six lines at 0 as soon as one invocation has run. -/
theorem TCH_Run_off_below_min_speed (ins : List (Nat × Bool)) :
    ∀ c : TCH_Context, c.tch_state = .TCH_STATE_OFF → (∀ i ∈ ins, i.1 < 5) →
      ∃ c', TCH_Run c ins = some c' ∧ c'.tch_state = .TCH_STATE_OFF ∧
        (ins ≠ [] → TCH_Outputs c' = [0, 0, 0, 0, 0, 0]) := by
  induction ins with
  | nil =>
    intro c hs _
    exact ⟨c, rfl, hs, fun h => absurd rfl h⟩
  | cons i rest ih =>
    intro c hs hall
    obtain ⟨speed, uif⟩ := i
    have hv : speed < 5 := hall (speed, uif) (List.mem_cons_self _ _)
    obtain ⟨c1, h1, hs1, ho1⟩ := TCH_Task_below_min_speed c speed uif hv
    obtain ⟨c', hrun, hs', ho'⟩ :=
      ih c1 hs1 (fun j hj => hall j (List.mem_cons_of_mem _ hj))
    refine ⟨c', ?_, hs', fun _ => ?_⟩
    · simp only [TCH_Run, h1]
      exact hrun
    · cases rest with
      | nil =>
        simp only [TCH_Run, Option.some.injEq] at hrun
        rw [← hrun]
        exact ho1 hs
      | cons j rest' => exact ho' (List.cons_ne_nil _ _)

/-- C18: from every state and every configuration of the lines, two consecutive invocations
with the speed below 5 km/h at both (whatever the elapsed flags) return, and after the second
the state is OFF and the six lines are at 0; and from OFF, any further invocations with the
speed below 5 km/h return with the state OFF and the six lines at 0. -/
theorem C18_off_and_deasserted_after_two_invocations (c : TCH_Context)
    (v1 v2 : Nat) (f1 f2 : Bool) (h1 : v1 < 5) (h2 : v2 < 5) :
    (∃ c1 c2, TCH_Task (TCH_Environment v1 f1 c) = some c1 ∧
      TCH_Task (TCH_Environment v2 f2 c1) = some c2 ∧
      c2.tch_state = .TCH_STATE_OFF ∧ TCH_Outputs c2 = [0, 0, 0, 0, 0, 0]) ∧
    (∀ (d : TCH_Context) (ins : List (Nat × Bool)),
      d.tch_state = .TCH_STATE_OFF → ins ≠ [] → (∀ i ∈ ins, i.1 < 5) →
      ∃ d', TCH_Run d ins = some d' ∧ d'.tch_state = .TCH_STATE_OFF ∧
        TCH_Outputs d' = [0, 0, 0, 0, 0, 0]) := by
  constructor
  · obtain ⟨c1, ht1, hs1, _⟩ := TCH_Task_below_min_speed c v1 f1 h1
    obtain ⟨c2, ht2, hs2, ho2⟩ := TCH_Task_below_min_speed c1 v2 f2 h2
    exact ⟨c1, c2, ht1, ht2, hs2, ho2 hs1⟩
  · intro d ins hs hne hall
    obtain ⟨d', hrun, hs', ho'⟩ := TCH_Run_off_below_min_speed ins d hs hall
    exact ⟨d', hrun, hs', ho' hne⟩

/-- Witness for C18: from STEP5 with the lines in the combination of STEP4, two invocations
at 4 and 0 km/h, the first with the elapsed flag set. -/
theorem C18_off_and_deasserted_after_two_invocations_witness :
    ∃ c1 c2,
      TCH_Task (TCH_Environment 4 true
        ⟨.TCH_STATE_STEP5, 90, ⟨true, 1⟩, ⟨true, 1⟩, ⟨true, 0⟩, ⟨true, 0⟩, ⟨true, 1⟩,
          ⟨true, 0⟩, ⟨true, 20593, false⟩⟩) = some c1 ∧
      TCH_Task (TCH_Environment 0 false c1) = some c2 ∧
      c2.tch_state = .TCH_STATE_OFF ∧ TCH_Outputs c2 = [0, 0, 0, 0, 0, 0] :=
  (C18_off_and_deasserted_after_two_invocations
    ⟨.TCH_STATE_STEP5, 90, ⟨true, 1⟩, ⟨true, 1⟩, ⟨true, 0⟩, ⟨true, 0⟩, ⟨true, 1⟩,
      ⟨true, 0⟩, ⟨true, 20593, false⟩⟩
    4 0 true false (by decide) (by decide)).1

/-! ## Seven-segment configurations -/

/-- C14: for every byte, `KVB_AsciiTo7Segments` returns 0 exactly when the byte is not the
code of one of the 29 supported characters, and for the code of a supported character the
result is not 0 and has bit 7, the dot, clear. -/
theorem C14_segments_zero_iff_unsupported :
    KVB_SupportedCharacters.length = 29 ∧
    ∀ c : Fin 256,
      (KVB_AsciiTo7Segments c.val = 0 ↔ c.val ∉ KVB_SupportedCharacters.map Char.toNat) ∧
      (c.val ∈ KVB_SupportedCharacters.map Char.toNat →
        KVB_AsciiTo7Segments c.val ≠ 0 ∧ (KVB_AsciiTo7Segments c.val).testBit 7 = false) := by
  refine ⟨rfl, ?_⟩
  decide

/-! ## DAC data holding registers -/

/-- C15, evaluated on the code: with 111 in the holding register of channel 1 and 222 in that
of channel 2, `DAC_SetVoltage(Channel2, 1000)` puts 1000 in the register of channel 1 and
leaves 222 in the register of channel 2, while `DAC_SetVoltage(Channel1, 1000)` writes the
same register. -/
theorem C15_channel2_writes_channel1_register :
    DAC_SetVoltage .Channel2 1000 ⟨0, 111, 222, 0, 0⟩ = ⟨0, 1000, 222, 0, 0⟩ ∧
    DAC_SetVoltage .Channel1 1000 ⟨0, 111, 222, 0, 0⟩ = ⟨0, 1000, 222, 0, 0⟩ := by
  constructor <;> rfl

/-- C16: for a supply constant `VCC_MV` that is positive and such that `4095 * VCC_MV` fits in
32 bits, and for every input, `DAC_SetVoltageMv` writes `4095 * min(voltage_mv, VCC_MV) /
VCC_MV` to DHR12R1, the product being below 2^32; the value written is at most 4095, is 4095
for every input of at least `VCC_MV`, and does not decrease when the input grows. -/
theorem C16_set_voltage_mv_scales_and_saturates (VCC_MV voltage_mv : Nat)
    (DAC : DAC_Registers) (hpos : 0 < VCC_MV) (hfit : 4095 * VCC_MV < 2 ^ 32) :
    (DAC_SetVoltageMv VCC_MV voltage_mv DAC).DHR12R1
        = 4095 * min voltage_mv VCC_MV / VCC_MV ∧
    4095 * min voltage_mv VCC_MV < 2 ^ 32 ∧
    (DAC_SetVoltageMv VCC_MV voltage_mv DAC).DHR12R1 ≤ 4095 ∧
    (VCC_MV ≤ voltage_mv → (DAC_SetVoltageMv VCC_MV voltage_mv DAC).DHR12R1 = 4095) ∧
    (∀ w : Nat, voltage_mv ≤ w →
      (DAC_SetVoltageMv VCC_MV voltage_mv DAC).DHR12R1
        ≤ (DAC_SetVoltageMv VCC_MV w DAC).DHR12R1) := by
  have hclamp : ∀ v : Nat, (if v > VCC_MV then VCC_MV else v) = min v VCC_MV := by
    intro v
    split <;> omega
  have hlt : ∀ v : Nat, 4095 * min v VCC_MV < 2 ^ 32 := by
    intro v
    have : 4095 * min v VCC_MV ≤ 4095 * VCC_MV :=
      Nat.mul_le_mul_left _ (Nat.min_le_right _ _)
    omega
  have hval : ∀ v : Nat,
      (DAC_SetVoltageMv VCC_MV v DAC).DHR12R1 = 4095 * min v VCC_MV / VCC_MV := by
    intro v
    simp only [DAC_SetVoltageMv, DAC_FULL_SCALE, Nat.not_lt_zero, if_false, hclamp]
    rw [Nat.mod_eq_of_lt (hlt v)]
  refine ⟨hval _, hlt _, ?_, ?_, ?_⟩
  · rw [hval]
    apply Nat.div_le_of_le_mul
    rw [Nat.mul_comm VCC_MV 4095]
    exact Nat.mul_le_mul_left _ (Nat.min_le_right _ _)
  · intro h
    rw [hval, Nat.min_eq_right h]
    exact Nat.mul_div_cancel _ hpos
  · intro w hw
    rw [hval, hval]
    apply Nat.div_le_div_right
    apply Nat.mul_le_mul_left
    omega

/-- Witness for C16: a 3300 mV supply and a request of 1650 mV give 2047. -/
theorem C16_set_voltage_mv_scales_and_saturates_witness :
    (DAC_SetVoltageMv 3300 1650 ⟨0, 0, 0, 0, 0⟩).DHR12R1 = 2047 :=
  (C16_set_voltage_mv_scales_and_saturates 3300 1650 ⟨0, 0, 0, 0, 0⟩
    (by decide) (by decide)).1.trans (by decide)

/-! ## ADC regular sequence register -/

/-- The mask `~(0b11111 << 0)` has its bits 5 to 31 set and no other. -/
theorem uint32_not_31_testBit (i : Nat) :
    (uint32_not (0b11111 <<< 0)).testBit i = (decide (5 ≤ i) && decide (i < 32)) := by
  have h : uint32_not (0b11111 <<< 0) = 2 ^ 5 * (2 ^ 27 - 1) := by decide
  rw [h, Nat.testBit_mul_pow_two, Nat.testBit_two_pow_sub_one]
  by_cases h5 : 5 ≤ i
  · have : (decide (i - 5 < 27)) = decide (i < 32) := by
      by_cases h32 : i < 32
      · simp [h32]; omega
      · simp [h32]; omega
    simp [h5, this]
  · simp [h5]

/-- C17: for every channel argument and every 32-bit value of SQR3, after
`ADC1_SetChannel(channel)` the low five bits of SQR3 are `min(channel, 18)` and the bits above
them are those of the prior value; the other registers are untouched. -/
theorem C17_set_channel_clamps_and_keeps_other_bits (channel : Nat) (ADC1 : ADC_Registers)
    (hreg : ADC1.SQR3 < 2 ^ 32) :
    (ADC1_SetChannel channel ADC1).SQR3 % 2 ^ 5 = min channel 18 ∧
    (ADC1_SetChannel channel ADC1).SQR3 / 2 ^ 5 = ADC1.SQR3 / 2 ^ 5 ∧
    ADC1_SetChannel channel ADC1 =
      { ADC1 with SQR3 := (ADC1_SetChannel channel ADC1).SQR3 } := by
  obtain ⟨sr, cr2, x, dr⟩ := ADC1
  dsimp only at hreg
  have hclamp : (if channel > ADC_CHANNEL_MAX then ADC_CHANNEL_MAX else channel)
      = min channel 18 := by
    simp only [ADC_CHANNEL_MAX]
    split <;> omega
  have hval : (ADC1_SetChannel channel ⟨sr, cr2, x, dr⟩).SQR3
      = (x &&& uint32_not (0b11111 <<< 0)) ||| min channel 18 := by
    simp only [ADC1_SetChannel, hclamp]
  have hlc : min channel 18 < 2 ^ 5 := by
    have : min channel 18 ≤ 18 := Nat.min_le_right _ _
    omega
  have hlcbit : ∀ i, 5 ≤ i → (min channel 18).testBit i = false := by
    intro i hi
    apply Nat.testBit_lt_two_pow
    exact Nat.lt_of_lt_of_le hlc (Nat.pow_le_pow_right (by decide) hi)
  have hxbit : ∀ i, 32 ≤ i → x.testBit i = false := by
    intro i hi
    apply Nat.testBit_lt_two_pow
    exact Nat.lt_of_lt_of_le hreg (Nat.pow_le_pow_right (by decide) hi)
  refine ⟨?_, ?_, ?_⟩
  · rw [hval]
    apply Nat.eq_of_testBit_eq
    intro i
    rw [Nat.testBit_mod_two_pow, Nat.testBit_or, Nat.testBit_and, uint32_not_31_testBit]
    by_cases h5 : i < 5
    · have h5n : ¬ (5 ≤ i) := by omega
      simp [h5, h5n]
    · have h5n : 5 ≤ i := by omega
      simp [h5, hlcbit i h5n]
  · rw [hval]
    apply Nat.eq_of_testBit_eq
    intro i
    rw [← Nat.shiftRight_eq_div_pow, ← Nat.shiftRight_eq_div_pow, Nat.testBit_shiftRight,
      Nat.testBit_shiftRight, Nat.testBit_or, Nat.testBit_and, uint32_not_31_testBit,
      hlcbit (5 + i) (by omega)]
    by_cases h32 : 5 + i < 32
    · have h5 : 5 ≤ 5 + i := by omega
      simp [h32, h5]
    · simp [h32, hxbit (5 + i) (by omega)]
  · simp only [ADC1_SetChannel]

/-- Witness for C17: channel 200 on a SQR3 with all 32 bits set gives 18 in the low five bits
and keeps the 27 bits above. -/
theorem C17_set_channel_clamps_and_keeps_other_bits_witness :
    (ADC1_SetChannel 200 ⟨0, 0, 0xFFFFFFFF, 0⟩).SQR3 % 2 ^ 5 = min 200 18 ∧
    (ADC1_SetChannel 200 ⟨0, 0, 0xFFFFFFFF, 0⟩).SQR3 / 2 ^ 5 = 0xFFFFFFFF / 2 ^ 5 :=
  ⟨(C17_set_channel_clamps_and_keeps_other_bits 200 ⟨0, 0, 0xFFFFFFFF, 0⟩ (by decide)).1,
   (C17_set_channel_clamps_and_keeps_other_bits 200 ⟨0, 0, 0xFFFFFFFF, 0⟩ (by decide)).2.1⟩

/-! ## The display buffer -/

/-- The result of `KVB_Display` on a string without null character inside, the two arrays
having their six entries: the string cut to six characters and padded with null characters,
and its conversion; the other variables are kept. -/
theorem KVB_Display_result (display : List Nat) (k : KVB_Context)
    (hs : ∀ b ∈ display, b ≠ 0)
    (ha : k.asciiData.length = 6) (hseg : k.segmentsData.length = 6) :
    KVB_Display display k = some
      { k with
        asciiData := display.take 6 ++ List.replicate (6 - min display.length 6) 0,
        segmentsData :=
          (display.take 6 ++ List.replicate (6 - min display.length 6) 0).map
            KVB_AsciiTo7Segments } := by
  obtain ⟨ad, sd, di, si, idp⟩ := k
  dsimp only at ha hseg ⊢
  obtain ⟨a0, a1, a2, a3, a4, a5, rfl⟩ :
      ∃ a0 a1 a2 a3 a4 a5, ad = [a0, a1, a2, a3, a4, a5] := by
    rcases ad with _ | ⟨a0, _ | ⟨a1, _ | ⟨a2, _ | ⟨a3, _ | ⟨a4, _ | ⟨a5, _ | ⟨a6, r⟩⟩⟩⟩⟩⟩⟩ <;>
      simp at ha
    exact ⟨_, _, _, _, _, _, rfl⟩
  obtain ⟨s0, s1, s2, s3, s4, s5, rfl⟩ :
      ∃ a0 a1 a2 a3 a4 a5, sd = [a0, a1, a2, a3, a4, a5] := by
    rcases sd with _ | ⟨a0, _ | ⟨a1, _ | ⟨a2, _ | ⟨a3, _ | ⟨a4, _ | ⟨a5, _ | ⟨a6, r⟩⟩⟩⟩⟩⟩⟩ <;>
      simp at hseg
    exact ⟨_, _, _, _, _, _, rfl⟩
  rcases display with _ | ⟨c0, _ | ⟨c1, _ | ⟨c2, _ | ⟨c3, _ | ⟨c4, _ | ⟨c5, r⟩⟩⟩⟩⟩⟩ <;>
    simp at hs <;>
    simp [KVB_Display, KVB_Display_copy, array_store, NUMBER_OF_DISPLAYS, hs, List.range',
      List.foldlM]

/-- C13: for every string `s` of length `n` (its bytes are not null; the terminating null
character follows them), with the two arrays of kvb.c having their six entries,
`KVB_Display(s)` returns, every store it makes being inside the arrays, which keep six
entries; after it `asciiData[i] = s[i]` for `i < min(n, 6)`, `asciiData[i] = 0` for
`min(n, 6) <= i < 6`, and `segmentsData[i] = KVB_AsciiTo7Segments(asciiData[i])` for every
`i` in 0..5; the other variables of the module are unchanged. -/
theorem C13_display_cuts_pads_and_converts (s : List Nat) (k : KVB_Context)
    (hs : ∀ b ∈ s, b ≠ 0)
    (ha : k.asciiData.length = NUMBER_OF_DISPLAYS)
    (hseg : k.segmentsData.length = NUMBER_OF_DISPLAYS) :
    ∃ k', KVB_Display s k = some k' ∧
      k'.asciiData.length = 6 ∧ k'.segmentsData.length = 6 ∧
      (∀ i, i < min s.length 6 → k'.asciiData[i]? = s[i]?) ∧
      (∀ i, min s.length 6 ≤ i → i < 6 → k'.asciiData[i]? = some 0) ∧
      (∀ i, i < 6 →
        k'.segmentsData[i]? = (k'.asciiData[i]?).map KVB_AsciiTo7Segments) ∧
      k'.displayIndex = k.displayIndex ∧ k'.segmentIndex = k.segmentIndex ∧
      k'.interDisplay = k.interDisplay := by
  refine ⟨_, KVB_Display_result s k hs ha hseg, ?_, ?_, ?_, ?_, ?_, rfl, rfl, rfl⟩
  · simp only [List.length_append, List.length_take, List.length_replicate]
    omega
  · simp only [List.length_map, List.length_append, List.length_take, List.length_replicate]
    omega
  · intro i hi
    have h1 : i < (s.take 6).length := by
      simp only [List.length_take]
      omega
    rw [List.getElem?_append_left h1, List.getElem?_take]
    simp only [ite_eq_left_iff]
    omega
  · intro i hlo hhi
    have h1 : (s.take 6).length ≤ i := by
      simp only [List.length_take]
      omega
    rw [List.getElem?_append_right h1, List.getElem?_replicate]
    simp only [List.length_take, ite_eq_left_iff]
    omega
  · intro i _
    simp only [List.getElem?_map]

/-- Witness for C13: the text "UC 512" of kvb.h over arrays that held other data. -/
theorem C13_display_cuts_pads_and_converts_witness :
    ∃ k', KVB_Display [85, 67, 32, 53, 49, 50]
        ⟨[9, 9, 9, 9, 9, 9], [7, 7, 7, 7, 7, 7], 3, 2, true⟩ = some k' ∧
      k'.asciiData.length = 6 ∧ k'.segmentsData.length = 6 ∧
      (∀ i, i < min [85, 67, 32, 53, 49, 50].length 6 →
        k'.asciiData[i]? = [85, 67, 32, 53, 49, 50][i]?) ∧
      (∀ i, min [85, 67, 32, 53, 49, 50].length 6 ≤ i → i < 6 →
        k'.asciiData[i]? = some 0) ∧
      (∀ i, i < 6 →
        k'.segmentsData[i]? = (k'.asciiData[i]?).map KVB_AsciiTo7Segments) ∧
      k'.displayIndex = 3 ∧ k'.segmentIndex = 2 ∧ k'.interDisplay = true :=
  C13_display_cuts_pads_and_converts [85, 67, 32, 53, 49, 50]
    ⟨[9, 9, 9, 9, 9, 9], [7, 7, 7, 7, 7, 7], 3, 2, true⟩ (by decide) rfl rfl

/-! ## The scale of the needle controller -/

/-- The rounded quotient is within half a unit of the exact one, in cross-multiplied form. -/
theorem MANO_Round_bounds (n d : Nat) (hd : 0 < d) :
    d * (2 * MANO_Round n d) ≤ 2 * n + d ∧ 2 * n + d < d * (2 * MANO_Round n d) + 2 * d := by
  unfold MANO_Round
  have h1 := Nat.div_add_mod (2 * n + d) (2 * d)
  have h2 := Nat.mod_lt (2 * n + d) (show 0 < 2 * d by omega)
  have h3 : 2 * d * ((2 * n + d) / (2 * d)) = d * (2 * ((2 * n + d) / (2 * d))) := by ring
  rw [h3] at h1
  constructor <;> omega

/-- The target step computed by `MANO_SetTarget` represents the requested quantity, clamped
to the maximum, within half a quantization step: with `t` the target step, `Q` the maximum
quantity and `S` the maximum step count, `|t * Q - min(q, Q) * S| <= Q / 2`. -/
theorem MANO_SetTarget_bounds (mano : MANO_Context) (q : Nat) :
    2 * ((MANO_SetTarget mano q).mano_target_step * mano.mano_pressure_max_decibars)
        ≤ 2 * (min q mano.mano_pressure_max_decibars * mano.mano_pressure_max_steps)
          + mano.mano_pressure_max_decibars ∧
    2 * (min q mano.mano_pressure_max_decibars * mano.mano_pressure_max_steps)
        ≤ 2 * ((MANO_SetTarget mano q).mano_target_step * mano.mano_pressure_max_decibars)
          + mano.mano_pressure_max_decibars := by
  simp only [MANO_SetTarget]
  generalize mano.mano_pressure_max_decibars = Q
  generalize mano.mano_pressure_max_steps = S
  rcases Nat.eq_zero_or_pos Q with hQ | hQ
  · subst hQ
    simp [MANO_Round]
  · obtain ⟨hA, hB⟩ := MANO_Round_bounds (q * S) Q hQ
    rcases Nat.le_total q Q with hq | hq
    · have hqS : q * S ≤ Q * S := Nat.mul_le_mul_right S hq
      have hr : MANO_Round (q * S) Q ≤ S := by
        by_contra hlt
        have h1 : S + 1 ≤ MANO_Round (q * S) Q := by omega
        have h2 : Q * (2 * (S + 1)) ≤ Q * (2 * MANO_Round (q * S) Q) :=
          Nat.mul_le_mul_left Q (Nat.mul_le_mul_left 2 h1)
        have h3 : Q * (2 * (S + 1)) = 2 * (Q * S) + 2 * Q := by ring
        omega
      rw [Nat.min_eq_left hr, Nat.min_eq_left hq]
      have h4 : Q * (2 * MANO_Round (q * S) Q) = 2 * (MANO_Round (q * S) Q * Q) := by ring
      omega
    · have hqS : Q * S ≤ q * S := Nat.mul_le_mul_right S hq
      have hr : S ≤ MANO_Round (q * S) Q := by
        by_contra hlt
        have h1 : MANO_Round (q * S) Q + 1 ≤ S := by omega
        have h2 : Q * (2 * (MANO_Round (q * S) Q + 1)) ≤ Q * (2 * S) :=
          Nat.mul_le_mul_left Q (Nat.mul_le_mul_left 2 h1)
        have h3 : Q * (2 * (MANO_Round (q * S) Q + 1))
            = Q * (2 * MANO_Round (q * S) Q) + 2 * Q := by ring
        have h4 : Q * (2 * S) = 2 * (Q * S) := by ring
        omega
      rw [Nat.min_eq_right hr, Nat.min_eq_right hq]
      have h5 : S * Q = Q * S := Nat.mul_comm S Q
      omega

/-- C12: let `m` be a context at steady state (current step equal to target step) whose
target step is the one stored by `MANO_SetTarget(q)` on a context of the same scale, `Q` the
maximum quantity and `S` the maximum step count.  The target step is at most `S`, and
`MANO_GetPressure` returns a value within one quantization step `Q / S` of `min(q, Q)`, the
requested quantity clamped to the scale: `S * |MANO_GetPressure - min(q, Q)| <= Q`. -/
theorem C12_pressure_within_one_step_at_steady_state (mano m : MANO_Context) (q : Nat)
    (hQ : m.mano_pressure_max_decibars = mano.mano_pressure_max_decibars)
    (hS : m.mano_pressure_max_steps = mano.mano_pressure_max_steps)
    (ht : m.mano_target_step = (MANO_SetTarget mano q).mano_target_step)
    (hsteady : m.mano_stepper.current_step = m.mano_target_step) :
    m.mano_target_step ≤ mano.mano_pressure_max_steps ∧
    mano.mano_pressure_max_steps * MANO_GetPressure m
      ≤ mano.mano_pressure_max_steps * min q mano.mano_pressure_max_decibars
        + mano.mano_pressure_max_decibars ∧
    mano.mano_pressure_max_steps * min q mano.mano_pressure_max_decibars
      ≤ mano.mano_pressure_max_steps * MANO_GetPressure m
        + mano.mano_pressure_max_decibars := by
  obtain ⟨hA, hB⟩ := MANO_SetTarget_bounds mano q
  have hle : m.mano_target_step ≤ mano.mano_pressure_max_steps := by
    rw [ht]
    exact Nat.min_le_right _ _
  refine ⟨hle, ?_⟩
  rw [← ht] at hA hB
  simp only [MANO_GetPressure, hsteady, hQ, hS]
  generalize mano.mano_pressure_max_decibars = Q at *
  generalize mano.mano_pressure_max_steps = S at *
  generalize m.mano_target_step = t at *
  generalize min q Q = q' at *
  rcases Nat.eq_zero_or_pos S with hS0 | hS0
  · subst hS0
    simp
  · obtain ⟨hC, hD⟩ := MANO_Round_bounds (t * Q) S hS0
    generalize MANO_Round (t * Q) S = ret at *
    have e1 : S * (2 * ret) = 2 * (S * ret) := by ring
    have e2 : q' * S = S * q' := Nat.mul_comm _ _
    rcases Nat.lt_or_ge Q S with hSQ | hSQ
    · constructor
      · have hlt : S * ret < S * (q' + 1) := by
          have e3 : S * (q' + 1) = S * q' + S := by ring
          omega
        have hret : ret ≤ q' := by
          have := Nat.lt_of_mul_lt_mul_left hlt
          omega
        have := Nat.mul_le_mul_left S hret
        omega
      · have hlt : S * q' < S * (ret + 1) := by
          have e3 : S * (ret + 1) = S * ret + S := by ring
          omega
        have hq' : q' ≤ ret := by
          have := Nat.lt_of_mul_lt_mul_left hlt
          omega
        have := Nat.mul_le_mul_left S hq'
        omega
    · constructor <;> omega

/-- Witness for C12: a scale of 100 decibars over 3072 steps, a request of 37 decibars: the
target step is 1137 and, the needle being there, the pressure read back is 37. -/
theorem C12_pressure_within_one_step_at_steady_state_witness :
    (MANO_SetTarget ⟨100, 3072, 50, 1, ⟨0⟩, 0, 0, 0, 20, 10⟩ 37).mano_target_step = 1137 ∧
    MANO_GetPressure ⟨100, 3072, 50, 1, ⟨1137⟩, 0, 1137, 0, 20, 10⟩ = 37 ∧
    3072 * MANO_GetPressure ⟨100, 3072, 50, 1, ⟨1137⟩, 0, 1137, 0, 20, 10⟩
      ≤ 3072 * min 37 100 + 100 :=
  ⟨by decide, by decide,
   (C12_pressure_within_one_step_at_steady_state
     ⟨100, 3072, 50, 1, ⟨0⟩, 0, 0, 0, 20, 10⟩
     ⟨100, 3072, 50, 1, ⟨1137⟩, 0, 1137, 0, 20, 10⟩ 37 rfl rfl (by decide) rfl).2.1⟩

end SCU
